import Mathlib

/-!
Verification of the crypto signal bot (`src/bot.py`).

Shallow embedding conventions:
* Python floats (prices, EMA values, Unix timestamps from `time.time()`) are
  modelled as exact rationals `ℚ`; the claims under study are order/structure
  claims whose margins are far above float rounding.
* `pandas.Series` of closes is modelled as `List ℚ` in order.
* Fallible code returns `Except String`; `None`-returning code returns `Option`.
* The dedup map `self.last_signals : dict` is modelled as a function
  `String → Option ℚ` (key present iff the value is `some`).
-/

namespace CryptoSignalBot

/-- One step of the `adjust=False` exponentially weighted mean recurrence used
by `pandas`: `y_t = x_t * α + y_{t-1} * (1 - α)`. -/
def emaStep (α prev x : ℚ) : ℚ := x * α + prev * (1 - α)

/-- The EMA values after the seed: each output is `emaStep` of the previous
output and the next close. -/
def emaFrom (α prev : ℚ) : List ℚ → List ℚ
  | [] => []
  | x :: xs => emaStep α prev x :: emaFrom α (emaStep α prev x) xs

/-- Embedding of `CryptoSignalBot.calculate_ema` (src/bot.py:123-125):
`data.ewm(span=period, adjust=False).mean()`.  `pandas` validates
`span >= 1` (raising `ValueError` otherwise, modelled as `Except.error`);
with `adjust=False` the result is the recurrence `ema[0] = closes[0]`,
`ema[i] = closes[i]*α + ema[i-1]*(1-α)` with `α = 2/(span+1)`.  An empty
series is not an error in `pandas`: the result is the empty series. -/
def calculate_ema (closes : List ℚ) (period : ℤ) : Except String (List ℚ) :=
  if period < 1 then .error "span must satisfy: span >= 1"
  else .ok (match closes with
    | [] => []
    | c :: cs => c :: emaFrom (2 / ((period : ℚ) + 1)) c cs)

/-- The EMA series as used inside `detect_crossover`, where the periods are
the literals 10 and 20 so the `span >= 1` validation cannot fire. -/
def emaOf (closes : List ℚ) (period : ℤ) : List ℚ :=
  (calculate_ema closes period).toOption.getD []

/-- Signal direction, the `'type'` field of the signal dict. -/
inductive Direction where
  | bullish
  | bearish
deriving DecidableEq, Repr

/-- Embedding of the signal dict built in `detect_crossover`
(src/bot.py:155-173). -/
structure CrossoverSignal where
  dir : Direction
  symbol : String
  price : ℚ
  ema10 : ℚ
  ema20 : ℚ
  ts : ℚ
deriving DecidableEq, Repr

/-- Embedding of `CryptoSignalBot.detect_crossover` (src/bot.py:138-175).
The dataframe is modelled by its `timestamp` and `close` columns (the only
ones the function reads); the `df is None` guard is the caller's
fetch-failure path (`check_signals` line 207 already tests `df is not None`
before calling), so the embedding takes the series directly.
`iloc[-1]` / `iloc[-2]` are indices `n-1` / `n-2`. -/
def detect_crossover (symbol : String) (timestamps closes : List ℚ) :
    Option CrossoverSignal :=
  if closes.length < 25 then none
  else
    let ema10 := emaOf closes 10
    let ema20 := emaOf closes 20
    let n := closes.length
    let cur10 := ema10.getD (n - 1) 0
    let cur20 := ema20.getD (n - 1) 0
    let prev10 := ema10.getD (n - 2) 0
    let prev20 := ema20.getD (n - 2) 0
    if prev10 ≤ prev20 ∧ cur10 > cur20 then
      some { dir := .bullish, symbol := symbol, price := closes.getD (n - 1) 0,
             ema10 := cur10, ema20 := cur20, ts := timestamps.getD (n - 1) 0 }
    else if prev10 ≥ prev20 ∧ cur10 < cur20 then
      some { dir := .bearish, symbol := symbol, price := closes.getD (n - 1) 0,
             ema10 := cur10, ema20 := cur20, ts := timestamps.getD (n - 1) 0 }
    else none

/-- The bullish crossover comparison of src/bot.py:154 in isolation
(`previous['ema_10'] <= previous['ema_20'] and current['ema_10'] > current['ema_20']`),
evaluated on a close series without the 25-sample minimum gate. -/
def bullishCondOn (closes : List ℚ) : Bool :=
  let ema10 := emaOf closes 10
  let ema20 := emaOf closes 20
  let n := closes.length
  decide (ema10.getD (n - 2) 0 ≤ ema20.getD (n - 2) 0)
    && decide (ema10.getD (n - 1) 0 > ema20.getD (n - 1) 0)

/-- The dedup map `self.last_signals` (src/bot.py:59): signal key to the
`time.time()` instant at which that signal was last admitted. -/
def DedupState : Type := String → Option ℚ

/-- Embedding of the dedup gate of `check_signals` (src/bot.py:216-219):

    if signal_key not in self.last_signals or \
       (current_time - self.last_signals[signal_key]) > 7200:
        signals_found.append(signal)
        self.last_signals[signal_key] = current_time

Returns whether the signal is admitted, together with the updated map.  The
source hard-codes the cooldown `7200`; the parameter is instantiated with
`7200` everywhere below. -/
def admitSignal (st : DedupState) (key : String) (now cooldown : ℚ) :
    Bool × DedupState :=
  match st key with
  | none => (true, fun k => if k = key then some now else st k)
  | some t =>
    if now - t > cooldown then
      (true, fun k => if k = key then some now else st k)
    else (false, st)

/-- The fresh dedup state `self.last_signals = {}` of `__init__`
(src/bot.py:59). -/
def freshDedup : DedupState := fun _ => none

/-- Python's substring test `pat in s`. -/
def strContains (s pat : String) : Bool :=
  s.data.tails.any (fun t => pat.data.isPrefixOf t)

/-- The `quoteVolume` field of one ticker, as `x[1].get('quoteVolume', 0)`
then `float(...)` sees it: absent (`.get` yields the default `0`), a numeric
value, or a value on which `float(...)` raises `ValueError`. -/
inductive QuoteVol where
  | absent
  | num (q : ℚ)
  | notNumeric
deriving DecidableEq, Repr

/-- `float(x[1].get('quoteVolume', 0))` (src/bot.py:112): absent defaults to
`0`, a numeric value converts, a non-numeric value raises. -/
def floatOfVol : QuoteVol → Except String ℚ
  | .absent => .ok 0
  | .num q => .ok q
  | .notNumeric => .error "could not convert string to float"

/-- The hard-coded fallback list of src/bot.py:121, returned when anything in
the `try` block of `get_top_coins_by_volume` raises. -/
def fallback_coins : List String :=
  ["BTC/USDT", "ETH/USDT", "BNB/USDT", "SOL/USDT", "XRP/USDT"]

/-- Embedding of `CryptoSignalBot.get_top_coins_by_volume`
(src/bot.py:103-121), with the fetched ticker snapshot as input (a list of
`(symbol, quoteVolume)` pairs in dict iteration order).  The dict
comprehension keeps symbols containing `'/USDT'` but not `':USDT'`
regardless of their volume; Python's `sorted(..., key=..., reverse=True)`
first applies the key (`float` of the volume) to every kept entry — a
`ValueError` there propagates to the `except` and yields the fallback
list — then sorts stably descending, and `[:limit]` truncates.
`List.mergeSort` with `b.2 ≤ a.2` is the same stable descending sort. -/
def get_top_coins_by_volume (tickers : List (String × QuoteVol))
    (limit : ℕ) : List String :=
  let usdt_pairs := tickers.filter
    (fun kv => strContains kv.1 "/USDT" && !strContains kv.1 ":USDT")
  match usdt_pairs.mapM (fun kv => (floatOfVol kv.2).map (fun q => (kv.1, q))) with
  | .error _ => fallback_coins
  | .ok keyed =>
    let sorted_pairs := keyed.mergeSort (fun a b => decide (b.2 ≤ a.2))
    (sorted_pairs.take limit).map (fun p => p.1)

/-- Whether every kept entry's volume converts with `float`, i.e. whether the
`sorted` call of src/bot.py:110-114 completes without raising. -/
def volumesParse (tickers : List (String × QuoteVol)) : Bool :=
  (tickers.filter
    (fun kv => strContains kv.1 "/USDT" && !strContains kv.1 ":USDT")).all
    (fun kv => (floatOfVol kv.2).isOk)

/-- The exceptions that can escape `check_signals` into the `run` loop
(src/bot.py:246-268).  Python's `except Exception` clause does not catch
`KeyboardInterrupt` (it derives from `BaseException`), which the loop
handles separately as its stop signal. -/
inductive PyExc where
  | keyboardInterrupt
  | exception (msg : String)
deriving DecidableEq, Repr

/-- Outcome of one execution of the `try` body of the `run` loop. -/
inductive CycleOutcome where
  | ok
  | raised (e : PyExc)
deriving DecidableEq, Repr

/-- What the `run` loop does after one cycle: sleep some seconds and run the
next cycle, or leave the loop. -/
inductive LoopStep where
  | nextCycleAfter (sleepSeconds : ℕ)
  | exitLoop
deriving DecidableEq, Repr

/-- Embedding of the control flow of one iteration of `CryptoSignalBot.run`
(src/bot.py:246-268): on success sleep 300 s and continue; on
`KeyboardInterrupt` break out of the loop; on any other exception
(`except Exception`) sleep 60 s and continue.  The auth-retry counter
(src/bot.py:252-255) never affects this control flow. -/
def run_loop_step : CycleOutcome → LoopStep
  | .ok => .nextCycleAfter 300
  | .raised .keyboardInterrupt => .exitLoop
  | .raised (.exception _) => .nextCycleAfter 60

/-- Number of cycles the `while True` loop executes, given the outcome of
each successive cycle (the list ends when we stop observing; an exhausted
list means the loop is still running). -/
def cyclesExecuted : List CycleOutcome → ℕ
  | [] => 0
  | o :: rest =>
    match run_loop_step o with
    | .nextCycleAfter _ => 1 + cyclesExecuted rest
    | .exitLoop => 1

/-- The close series of the spec's flat-then-rising test vector. -/
def closes25 : List ℚ :=
  [10, 10, 10, 10, 10, 10, 10, 10, 10, 10, 10, 10, 10, 10, 10, 10, 10, 10,
   10, 12, 14, 16, 18, 20, 22]

/-- Candle timestamps accompanying `closes25` (one sample per index; the
detector only copies the last timestamp into the signal payload). -/
def ts25 : List ℚ := (List.range 25).map (fun i => (i : ℚ))

/-! ## Helper lemmas -/

theorem emaFrom_length (α : ℚ) : ∀ (prev : ℚ) (xs : List ℚ),
    (emaFrom α prev xs).length = xs.length
  | _, [] => rfl
  | prev, x :: xs => by
    simp only [emaFrom, List.length_cons, emaFrom_length α _ xs]

theorem emaFrom_getD_succ (α : ℚ) : ∀ (xs : List ℚ) (prev : ℚ) (i : ℕ),
    i < xs.length →
    (prev :: emaFrom α prev xs).getD (i + 1) 0 =
      emaStep α ((prev :: emaFrom α prev xs).getD i 0) (xs.getD i 0)
  | [], _, i, hi => absurd hi (by simp)
  | x :: xs, prev, 0, _ => rfl
  | x :: xs, prev, i + 1, hi => by
    have ih := emaFrom_getD_succ α xs (emaStep α prev x) i
      (by simpa using Nat.lt_of_succ_lt_succ hi)
    simpa [emaFrom] using ih

theorem mapM_floatOf_ok (l : List (String × QuoteVol))
    (h : l.all (fun kv => (floatOfVol kv.2).isOk) = true) :
    ∃ keyed : List (String × ℚ),
      l.mapM (fun kv => (floatOfVol kv.2).map (fun q => (kv.1, q)))
        = Except.ok keyed := by
  induction l with
  | nil => exact ⟨[], rfl⟩
  | cons kv rest ih =>
    simp only [List.all_cons, Bool.and_eq_true] at h
    obtain ⟨keyed, hk⟩ := ih h.2
    cases hfv : floatOfVol kv.2 with
    | error e =>
      rw [hfv] at h
      simp [Except.isOk, Except.toBool] at h
    | ok q =>
      refine ⟨(kv.1, q) :: keyed, ?_⟩
      rw [List.mapM_cons, hk, hfv]
      rfl

theorem detect_crossover_branches (symbol : String) (ts closes : List ℚ)
    (h : ¬ closes.length < 25) :
    detect_crossover symbol ts closes =
      (if (emaOf closes 10).getD (closes.length - 2) 0
            ≤ (emaOf closes 20).getD (closes.length - 2) 0
          ∧ (emaOf closes 10).getD (closes.length - 1) 0
            > (emaOf closes 20).getD (closes.length - 1) 0 then
        some { dir := .bullish, symbol := symbol,
               price := closes.getD (closes.length - 1) 0,
               ema10 := (emaOf closes 10).getD (closes.length - 1) 0,
               ema20 := (emaOf closes 20).getD (closes.length - 1) 0,
               ts := ts.getD (closes.length - 1) 0 }
      else if (emaOf closes 10).getD (closes.length - 2) 0
            ≥ (emaOf closes 20).getD (closes.length - 2) 0
          ∧ (emaOf closes 10).getD (closes.length - 1) 0
            < (emaOf closes 20).getD (closes.length - 1) 0 then
        some { dir := .bearish, symbol := symbol,
               price := closes.getD (closes.length - 1) 0,
               ema10 := (emaOf closes 10).getD (closes.length - 1) 0,
               ema20 := (emaOf closes 20).getD (closes.length - 1) 0,
               ts := ts.getD (closes.length - 1) 0 }
      else none) := by
  simp only [detect_crossover, h, if_false]

/-! ## Claim theorems -/

/-- C3: for every period p ≥ 1 and every non-empty close sequence,
`calculate_ema` succeeds with a sequence of the same length satisfying
`ema[0] = closes[0]` and `ema[i] = closes[i]*α + ema[i-1]*(1-α)` with
`α = 2/(p+1)`; in particular the first output element equals the first
close. -/
theorem calculate_ema_recurrence (period : ℤ) (closes : List ℚ)
    (hp : 1 ≤ period) (hne : closes ≠ []) :
    ∃ out, calculate_ema closes period = Except.ok out
      ∧ out.length = closes.length
      ∧ out.getD 0 0 = closes.getD 0 0
      ∧ ∀ i, i + 1 < closes.length →
          out.getD (i + 1) 0 =
            closes.getD (i + 1) 0 * (2 / ((period : ℚ) + 1))
              + out.getD i 0 * (1 - 2 / ((period : ℚ) + 1)) := by
  obtain ⟨c, cs, rfl⟩ : ∃ c cs, closes = c :: cs := by
    cases closes with
    | nil => exact absurd rfl hne
    | cons c cs => exact ⟨c, cs, rfl⟩
  have hnl : ¬ period < 1 := by omega
  refine ⟨c :: emaFrom (2 / ((period : ℚ) + 1)) c cs, ?_, ?_, rfl, ?_⟩
  · simp [calculate_ema, hnl]
  · simp [emaFrom_length]
  · intro i hi
    have hi' : i < cs.length := by simpa using hi
    have := emaFrom_getD_succ (2 / ((period : ℚ) + 1)) cs c i hi'
    rw [this, emaStep]
    simp

/-- Witness for `calculate_ema_recurrence` at period 3 and closes `[1, 2]`. -/
theorem calculate_ema_recurrence_witness :
    (1 : ℤ) ≤ 3 ∧ ([(1 : ℚ), 2] : List ℚ) ≠ []
      ∧ ∃ out, calculate_ema [(1 : ℚ), 2] 3 = Except.ok out
          ∧ out.length = 2 ∧ out.getD 0 0 = 1 := by
  refine ⟨by norm_num, by simp, ?_⟩
  obtain ⟨out, h1, h2, h3, -⟩ :=
    calculate_ema_recurrence 3 [(1 : ℚ), 2] (by norm_num) (by simp)
  exact ⟨out, h1, by simpa using h2, by simpa using h3⟩

/-- C7 counterexample: the claim says `calculate_ema` fails whenever the
closes sequence is empty, but on an empty series with a valid period the
code succeeds (pandas returns an empty series; there is no emptiness check
anywhere in `calculate_ema`). -/
theorem calculate_ema_empty_ok_counterexample :
    calculate_ema ([] : List ℚ) 5 = Except.ok [] := rfl

/-- C7 amended: `calculate_ema` fails (the pandas `span >= 1` validation
raising `ValueError`) iff the period is less than 1, and succeeds
otherwise; on an empty closes sequence with period ≥ 1 it succeeds,
returning the empty sequence. -/
theorem calculate_ema_error_iff (period : ℤ) (closes : List ℚ) :
    ((∃ msg, calculate_ema closes period = Except.error msg) ↔ period < 1)
      ∧ (1 ≤ period → calculate_ema ([] : List ℚ) period = Except.ok []) := by
  by_cases h : period < 1
  · constructor
    · simp [calculate_ema, h]
    · intro h1
      omega
  · constructor
    · simp [calculate_ema, h]
    · intro _
      simp [calculate_ema, h]

/-- Witness for `calculate_ema_error_iff`: period 0 fails, period 3 on an
empty series succeeds. -/
theorem calculate_ema_error_iff_witness :
    ((0 : ℤ) < 1)
      ∧ (∃ msg, calculate_ema [(1 : ℚ)] 0 = Except.error msg)
      ∧ calculate_ema ([] : List ℚ) 3 = Except.ok [] :=
  ⟨by norm_num, (calculate_ema_error_iff 0 [(1 : ℚ)]).1.mpr (by norm_num),
   (calculate_ema_error_iff 3 []).2 (by norm_num)⟩

/-- C8: for every input series with fewer than 25 samples
(`slowPeriod + 5` with the default slow period 20), `detect_crossover`
returns `none` — its return type is `Option`, so no error is possible. -/
theorem detect_crossover_short_series (symbol : String)
    (timestamps closes : List ℚ) (h : closes.length < 25) :
    detect_crossover symbol timestamps closes = none := by
  simp [detect_crossover, h]

/-- Witness for `detect_crossover_short_series` on the empty series. -/
theorem detect_crossover_short_series_witness :
    ([] : List ℚ).length < 25
      ∧ detect_crossover "BTC/USDT" [] [] = none :=
  ⟨by simp, detect_crossover_short_series "BTC/USDT" [] [] (by simp)⟩

/-- C9: when `admitSignal` returns false the dedup map is unchanged; when it
returns true the only change is that the given key now maps to `now`
(overwriting any prior value), all other keys unchanged. -/
theorem admit_frame (st : DedupState) (key : String) (now cooldown : ℚ) :
    ((admitSignal st key now cooldown).1 = false →
        (admitSignal st key now cooldown).2 = st)
      ∧ ((admitSignal st key now cooldown).1 = true →
          (admitSignal st key now cooldown).2 key = some now
            ∧ ∀ k, k ≠ key → (admitSignal st key now cooldown).2 k = st k) := by
  unfold admitSignal
  cases hst : st key with
  | none =>
    refine ⟨fun hfalse => by simp at hfalse, fun _ => ⟨by simp, ?_⟩⟩
    intro k hk
    simp [hk]
  | some t =>
    by_cases hcd : now - t > cooldown
    · refine ⟨fun hfalse => by simp [hcd] at hfalse, fun _ => ⟨by simp [hcd], ?_⟩⟩
      intro k hk
      simp [hcd, hk]
    · exact ⟨fun _ => by simp [hcd], fun htrue => by simp [hcd] at htrue⟩

/-- Witness for `admit_frame`: a suppressed call leaves the map untouched,
an admitted call records the key. -/
theorem admit_frame_witness :
    (admitSignal (fun _ => some (0 : ℚ)) "BTC/USDT_BULLISH" 100 7200).2
        = (fun _ => some (0 : ℚ))
      ∧ (admitSignal freshDedup "BTC/USDT_BULLISH" 5 7200).2 "BTC/USDT_BULLISH"
        = some 5 :=
  ⟨(admit_frame (fun _ => some 0) "BTC/USDT_BULLISH" 100 7200).1 (by decide!),
   ((admit_frame freshDedup "BTC/USDT_BULLISH" 5 7200).2 (by decide!)).1⟩

/-- C10: at the exact cooldown boundary the gate suppresses: for a key
already recorded at time t, if `now - t = 7200` then `admitSignal` returns
false; admission requires elapsed time strictly greater than the
cooldown. -/
theorem admit_boundary_suppresses (st : DedupState) (key : String)
    (t now : ℚ) (hrec : st key = some t) (hb : now - t = 7200) :
    (admitSignal st key now 7200).1 = false := by
  simp [admitSignal, hrec, hb]

/-- Witness for `admit_boundary_suppresses` at t = 0, now = 7200. -/
theorem admit_boundary_suppresses_witness :
    ((fun _ => some (0 : ℚ)) "BTC/USDT_BULLISH" = some (0 : ℚ))
      ∧ ((7200 : ℚ) - 0 = 7200)
      ∧ (admitSignal (fun _ => some (0 : ℚ)) "BTC/USDT_BULLISH" 7200 7200).1 = false :=
  ⟨rfl, by norm_num,
   admit_boundary_suppresses (fun _ => some 0) "BTC/USDT_BULLISH" 0 7200 rfl
     (by norm_num)⟩

/-- C1: the dedup gate admits a signal only if no signal with the same key
was recorded within the preceding 7200-second cooldown window (whenever
the map records time t for the key, admission implies `now - t > 7200`);
and for a fresh state, `admitSignal(k, t0, 7200)` is true, `admitSignal(k, t0+100,
7200)` is false, and `admitSignal(k, t0+7201, 7200)` is true. -/
theorem check_signals_cooldown_gate :
    (∀ (st : DedupState) (k : String) (now t : ℚ), st k = some t →
        (admitSignal st k now 7200).1 = true → now - t > 7200)
      ∧ ∀ (k : String) (t0 : ℚ),
          (admitSignal freshDedup k t0 7200).1 = true
            ∧ (admitSignal (admitSignal freshDedup k t0 7200).2 k (t0 + 100) 7200).1 = false
            ∧ (admitSignal (admitSignal freshDedup k t0 7200).2 k (t0 + 7201) 7200).1 = true := by
  constructor
  · intro st k now t hrec hadm
    rw [admitSignal, hrec] at hadm
    by_cases hcd : now - t > 7200
    · exact hcd
    · simp [hcd] at hadm
  · intro k t0
    have hstep : (admitSignal freshDedup k t0 7200).2 k = some t0 := by
      simp [admitSignal, freshDedup]
    refine ⟨by simp [admitSignal, freshDedup], ?_, ?_⟩
    · rw [admitSignal, hstep]
      norm_num
    · rw [admitSignal, hstep]
      norm_num

/-- Witness for `check_signals_cooldown_gate`: the invariant at a state
recording time 10000 queried at time 20000, and the fresh-state trace at
key BTC/USDT_BULLISH, t0 = 0. -/
theorem check_signals_cooldown_gate_witness :
    ((20000 : ℚ) - 10000 > 7200)
      ∧ (admitSignal freshDedup "BTC/USDT_BULLISH" 0 7200).1 = true :=
  ⟨check_signals_cooldown_gate.1 (fun _ => some 10000) "BTC/USDT_BULLISH"
      20000 10000 rfl (by decide!),
   (check_signals_cooldown_gate.2 "BTC/USDT_BULLISH" 0).1⟩

/-- C5: every Python-`Exception` escaping a cycle is caught by the `run`
loop, which sleeps the 60-second back-off (strictly shorter than the
300-second steady-state interval) and then executes the next cycle; such
an exception never ends the loop.  (`KeyboardInterrupt` is not an
`Exception`: it is the loop's cooperative stop signal.) -/
theorem run_loop_isolates_cycle_errors :
    (∀ msg, run_loop_step (.raised (.exception msg)) = .nextCycleAfter 60)
      ∧ 60 < 300
      ∧ run_loop_step .ok = .nextCycleAfter 300
      ∧ ∀ msg rest, cyclesExecuted (.raised (.exception msg) :: rest)
          = 1 + cyclesExecuted rest :=
  ⟨fun _ => rfl, by norm_num, rfl, fun _ _ => rfl⟩

/-- C6 counterexample: on the flat-then-rising 25-sample series, the claim
says some prefix produces a Bullish event, but `detect_crossover` applied
to every prefix (lengths 0 through 25, the full series) returns no event:
short prefixes fail the 25-sample minimum, and on the full series the
fast EMA is already above the slow EMA at the second-to-last sample. -/
theorem flat_rising_no_event_counterexample :
    ((List.range 26).all (fun k =>
        (detect_crossover "BTC/USDT" (ts25.take k) (closes25.take k)).isNone))
        = true
      ∧ closes25.length = 25 := by
  constructor
  · decide!
  · decide!

/-- C6 amended: no prefix of the flat-then-rising series yields any event.
The fast EMA first exceeds the slow EMA exactly from index 19 on, and the
code's bullish crossover comparison (prior fast ≤ prior slow, current
fast > current slow), taken without the 25-sample minimum gate, holds on
the prefix of length 20 — the first position at which fast exceeds slow —
and at no other prefix; `detect_crossover` itself returns none at every
prefix because length-20 prefixes are below the 25-sample minimum and by
the full series the crossover lies in the past. -/
theorem flat_rising_crossover_amended :
    ((List.range 26).all (fun k =>
        (detect_crossover "BTC/USDT" (ts25.take k) (closes25.take k)).isNone))
        = true
      ∧ ((List.range 26).all (fun k =>
          bullishCondOn (closes25.take k) == decide (k = 20))) = true
      ∧ ((List.range 25).all (fun i =>
          decide ((emaOf closes25 10).getD i 0 > (emaOf closes25 20).getD i 0)
            == decide (19 ≤ i))) = true := by
  refine ⟨by decide!, by decide!, by decide!⟩

/-- C4 counterexample: the claim says entries with absent volume are
excluded, but `get_top_coins_by_volume` keeps them — `.get('quoteVolume', 0)`
defaults the missing volume to 0, which sorts last but is not filtered
out. -/
theorem get_top_coins_claim_counterexample :
    get_top_coins_by_volume [("A/USDT", QuoteVol.absent)] 5 = ["A/USDT"] := by
  decide!

/-- C4 amended: the quote filter is hard-coded to symbols containing
"/USDT" and not ":USDT" (not a parameter); entries with absent or
non-positive volume are kept (absent is treated as 0); one non-numeric
volume among the kept entries makes the whole ranking raise, and the
fixed fallback list is returned instead.  For the claim's tickers
transposed to the code's quote currency — A/USDT: 100, B/USDT: 500,
C/EUR: 9999, D/USDT: non-numeric — with limit 2 the result is the
fallback list, and with the non-numeric entry removed it is exactly
[B/USDT, A/USDT]; when every kept volume is numeric the result length is
at most the limit. -/
theorem get_top_coins_by_volume_amended :
    get_top_coins_by_volume
        [("A/USDT", QuoteVol.num 100), ("B/USDT", QuoteVol.num 500),
         ("C/EUR", QuoteVol.num 9999), ("D/USDT", QuoteVol.notNumeric)] 2
      = fallback_coins
  ∧ get_top_coins_by_volume
        [("A/USDT", QuoteVol.num 100), ("B/USDT", QuoteVol.num 500),
         ("C/EUR", QuoteVol.num 9999)] 2
      = ["B/USDT", "A/USDT"]
  ∧ get_top_coins_by_volume [("Z/USDT", QuoteVol.num 0)] 3 = ["Z/USDT"]
  ∧ ∀ (tickers : List (String × QuoteVol)) (limit : ℕ),
      volumesParse tickers = true →
      (get_top_coins_by_volume tickers limit).length ≤ limit := by
  refine ⟨by decide!, by decide!, by decide!, ?_⟩
  intro tickers limit h
  rw [volumesParse] at h
  obtain ⟨keyed, hk⟩ := mapM_floatOf_ok _ h
  rw [get_top_coins_by_volume, hk]
  simp [List.length_take]

/-- Witness for the quantified part of `get_top_coins_by_volume_amended`. -/
theorem get_top_coins_by_volume_amended_witness :
    volumesParse [("A/USDT", QuoteVol.num 7)] = true
      ∧ (get_top_coins_by_volume [("A/USDT", QuoteVol.num 7)] 1).length ≤ 1 :=
  ⟨by decide!,
   get_top_coins_by_volume_amended.2.2.2 [("A/USDT", QuoteVol.num 7)] 1
     (by decide!)⟩

/-- C2: for every series with at least 25 samples, `detect_crossover`
returns Bullish iff fast[n-2] ≤ slow[n-2] and fast[n-1] > slow[n-1],
Bearish iff fast[n-2] ≥ slow[n-2] and fast[n-1] < slow[n-1], none
otherwise; consequently inputs whose fast and slow EMAs agree at every
sample produce none. -/
theorem detect_crossover_cases (symbol : String) (timestamps closes : List ℚ)
    (h : 25 ≤ closes.length) :
    (((detect_crossover symbol timestamps closes).map CrossoverSignal.dir
        = some Direction.bullish)
      ↔ ((emaOf closes 10).getD (closes.length - 2) 0
            ≤ (emaOf closes 20).getD (closes.length - 2) 0
          ∧ (emaOf closes 10).getD (closes.length - 1) 0
            > (emaOf closes 20).getD (closes.length - 1) 0))
  ∧ (((detect_crossover symbol timestamps closes).map CrossoverSignal.dir
        = some Direction.bearish)
      ↔ ((emaOf closes 10).getD (closes.length - 2) 0
            ≥ (emaOf closes 20).getD (closes.length - 2) 0
          ∧ (emaOf closes 10).getD (closes.length - 1) 0
            < (emaOf closes 20).getD (closes.length - 1) 0))
  ∧ ((detect_crossover symbol timestamps closes = none)
      ↔ (¬ ((emaOf closes 10).getD (closes.length - 2) 0
            ≤ (emaOf closes 20).getD (closes.length - 2) 0
          ∧ (emaOf closes 10).getD (closes.length - 1) 0
            > (emaOf closes 20).getD (closes.length - 1) 0)
        ∧ ¬ ((emaOf closes 10).getD (closes.length - 2) 0
            ≥ (emaOf closes 20).getD (closes.length - 2) 0
          ∧ (emaOf closes 10).getD (closes.length - 1) 0
            < (emaOf closes 20).getD (closes.length - 1) 0)))
  ∧ ((∀ i < closes.length,
        (emaOf closes 10).getD i 0 = (emaOf closes 20).getD i 0)
      → detect_crossover symbol timestamps closes = none) := by
  rw [detect_crossover_branches symbol timestamps closes (by omega)]
  set p10 := (emaOf closes 10).getD (closes.length - 2) 0 with hp10
  set p20 := (emaOf closes 20).getD (closes.length - 2) 0 with hp20
  set c10 := (emaOf closes 10).getD (closes.length - 1) 0 with hc10
  set c20 := (emaOf closes 20).getD (closes.length - 1) 0 with hc20
  by_cases h1 : p10 ≤ p20 ∧ c10 > c20
  · rw [if_pos h1]
    refine ⟨by simp [h1], by simp [lt_asymm h1.2], by simp [h1], ?_⟩
    intro heq
    have hme := heq (closes.length - 1) (by omega)
    rw [← hc10, ← hc20] at hme
    rw [hme] at h1
    exact absurd h1.2 (lt_irrefl _)
  · rw [if_neg h1]
    by_cases h2 : p10 ≥ p20 ∧ c10 < c20
    · rw [if_pos h2]
      refine ⟨by simp [h1], by simp [h2], by simp [h2], ?_⟩
      intro heq
      have hme := heq (closes.length - 1) (by omega)
      rw [← hc10, ← hc20] at hme
      rw [hme] at h2
      exact absurd h2.2 (lt_irrefl _)
    · rw [if_neg h2]
      exact ⟨by simp [h1], by simp [h2], by simp [h1, h2], fun _ => rfl⟩

/-- Witness for `detect_crossover_cases` on a constant 25-sample series,
whose equal EMAs force the no-event branch. -/
theorem detect_crossover_cases_witness :
    25 ≤ (List.replicate 25 (10 : ℚ)).length
      ∧ detect_crossover "BTC/USDT" (List.replicate 25 (0 : ℚ))
          (List.replicate 25 (10 : ℚ)) = none :=
  ⟨by simp,
   (detect_crossover_cases "BTC/USDT" (List.replicate 25 (0 : ℚ))
       (List.replicate 25 (10 : ℚ)) (by simp)).2.2.2 (by decide!)⟩

end CryptoSignalBot
